import Mathlib

/-!
Verification development for the PDF outline extractor in process_pdfs.py.

The program derives a document title and a leveled outline (H1/H2/H3) from
positioned text lines, unless the document carries an embedded outline, in
which case that outline is reformatted directly.

Shallow embedding conventions:
* Text lines (the dictionaries built by extract_text_blocks) become the
  structure Block.  Font sizes and coordinates are exact rationals.
* The document-parsing collaborator (PyMuPDF) is represented by a Document
  record holding the values the core code reads from it: page count, first
  page dimensions, the embedded outline returned by get_toc, and the sorted
  text-line list returned by extract_text_blocks.
* Python round is round-half-to-even (pyRound below).
* difflib SequenceMatcher.ratio is an external library; it enters the code
  only through the comparison in is_similar, so the whole development is
  parameterized by a similarity function simFn : String → String → ℚ.
* The compiled numbered-heading regular expression from languages.json is
  external configuration data; it is abstracted as a pair of functions
  NumRegex (a start-anchored match test and the substitution regex.sub).
* numpy mean/std on exact values are npMean / npStd over ℝ (np.std is the
  population standard deviation, hence Real.sqrt, hence the classification
  phase lives in ℝ and is noncomputable; the scoring phase is executable).
-/

/-- A text line as produced by extract_text_blocks: concatenated text, the
dominant font size of the line, boldness flag, 1-based page number, and the
line bounding box (y grows downward). -/
structure Block where
  text : String
  font_size : ℚ
  bold : Bool
  page : ℤ
  x0 : ℚ
  y0 : ℚ
  x1 : ℚ
  y1 : ℚ
  deriving DecidableEq

/-- One produced outline entry: {"level": ..., "text": ..., "page": ...}. -/
structure OutlineEntry where
  level : String
  text : String
  page : ℤ
  deriving DecidableEq

/-- The values the core code reads from the parsing collaborator for one
document: page_count, the first page rect dimensions, the get_toc result
(level, title, page), and the sorted block list of extract_text_blocks. -/
structure Document where
  page_count : ℕ
  page_width : ℚ
  page_height : ℚ
  toc : List (ℤ × String × ℤ)
  blocks : List Block
  deriving DecidableEq

/-- The per-document result dictionary {"title": ..., "outline": ...}. -/
structure DocResult where
  title : String
  outline : List OutlineEntry
  deriving DecidableEq

/-- Config.SIMILARITY_THRESHOLD. -/
def SIMILARITY_THRESHOLD : ℚ := 85 / 100

/-- Config.TITLE_MIN_CHARS. -/
def TITLE_MIN_CHARS : ℕ := 10

/-- Config.HEADING_MIN_CHARS. -/
def HEADING_MIN_CHARS : ℕ := 3

/-- Config.W_FONT_SIZE. -/
def W_FONT_SIZE : ℚ := 25

/-- Config.W_VERTICAL_GAP. -/
def W_VERTICAL_GAP : ℚ := 40

/-- Config.W_IS_BOLD. -/
def W_IS_BOLD : ℚ := 15

/-- Config.W_TEXT_LENGTH. -/
def W_TEXT_LENGTH : ℚ := 20

/-- Python round on an exact rational: round half to even. -/
def pyRound (q : ℚ) : ℤ :=
  if q - ⌊q⌋ < 1 / 2 then ⌊q⌋
  else if 1 / 2 < q - ⌊q⌋ then ⌊q⌋ + 1
  else if ⌊q⌋ % 2 = 0 then ⌊q⌋ else ⌊q⌋ + 1

/-- Helper for normalize_text: the remaining characters given the previous
original character.  A character c is kept iff c differs from the previous
original character or is not alphanumeric (first character always kept by
normalizeChars). -/
def normalizeFrom : Char → List Char → List Char
  | _, [] => []
  | prev, c :: cs =>
    if c ≠ prev ∨ ¬ c.isAlphanum then c :: normalizeFrom c cs
    else normalizeFrom c cs

/-- normalize_text on the character list: keep character i iff i = 0, or it
differs from character i-1, or it is not alphanumeric. -/
def normalizeChars : List Char → List Char
  | [] => []
  | c :: cs => c :: normalizeFrom c cs

/-- normalize_text: collapse runs of identical consecutive alphanumeric
characters (rendering-duplication artifact); the empty string maps to "". -/
def normalize_text (s : String) : String :=
  ⟨normalizeChars s.data⟩

/-- Python str.strip() on the character list: drop leading and trailing
whitespace. -/
def trimChars (l : List Char) : List Char :=
  ((l.dropWhile Char.isWhitespace).reverse.dropWhile Char.isWhitespace).reverse

/-- Python str.strip(): whitespace removed from both ends. -/
def pyStrip (s : String) : String :=
  ⟨trimChars s.data⟩

/-- is_similar: SequenceMatcher(None, a.lower(), b.lower()).ratio() is the
external similarity function simFn; the code compares it to the 0.85
threshold. -/
def is_similar (simFn : String → String → ℚ) (a b : String) : Bool :=
  decide (SIMILARITY_THRESHOLD ≤ simFn a.toLower b.toLower)

/-- The key used by identify_repeated_elements and by the boilerplate test
in classify_headings: (b.text.strip(), round(bbox1 / 10)). -/
def blockKey (b : Block) : String × ℤ :=
  (pyStrip b.text, pyRound (b.y0 / 10))

/-- Membership in the set returned by identify_repeated_elements with
min_pages = 3: the key occurs on at least 3 distinct pages. -/
def isRepeatedElement (blocks : List Block) (k : String × ℤ) : Bool :=
  decide (3 ≤ (((blocks.filter fun b => decide (blockKey b = k)).map Block.page).dedup).length)

/-- Counter(...).most_common(1)[0][0]: the element with the largest
multiplicity; ties are broken toward the element whose first occurrence in
the list comes first (Counter insertion order with a stable selection). -/
def listModeFirst (l : List ℤ) : ℤ :=
  l.foldl (fun best x => if l.count best < l.count x then x else best) (l.headD 0)

/-- cluster_font_sizes: body size is the most frequent rounded positive font
size, primary heading size is the largest rounded size above it (or the body
size if none); (0, 0) when no positive sizes exist. -/
def cluster_font_sizes (blocks : List Block) : ℤ × ℤ :=
  let font_sizes := (blocks.filter fun b => decide (0 < b.font_size)).map Block.font_size
  if font_sizes.isEmpty then (0, 0)
  else
    let rounded := font_sizes.map pyRound
    let body_size := listModeFirst rounded
    let heading_sizes := rounded.filter fun s => decide (body_size < s)
    (body_size, heading_sizes.foldl max body_size)

/-- A title candidate as accumulated by detect_title. -/
structure TitleCand where
  score : ℚ
  text : String
  deriving DecidableEq

/-- The candidate list built by detect_title: page-1 lines of length at
least TITLE_MIN_CHARS, scored by font size, a 1.5 boost when the top edge
lies in the top 40 percent of the page, and a centering factor. -/
def title_candidates (page_width page_height : ℚ) (blocks : List Block) : List TitleCand :=
  blocks.filterMap fun b =>
    if b.page ≠ 1 ∨ b.text.length < TITLE_MIN_CHARS then none
    else
      let base : ℚ := b.font_size
      let boosted : ℚ := if b.y0 < page_height * (2 / 5) then base * (3 / 2) else base
      let center_pos : ℚ := (b.x0 + b.x1) / 2
      let center_diff : ℚ := |center_pos - page_width / 2|
      some ⟨boosted * max (1 / 10) (1 - center_diff / (page_width / 2)), b.text⟩

/-- Python max(candidates, key=score): the first candidate attaining the
maximal score. -/
def maxCandFirst : List TitleCand → Option TitleCand
  | [] => none
  | c :: cs => some (cs.foldl (fun m x => if m.score < x.score then x else m) c)

/-- detect_title: empty string when the document has no pages or no
candidate qualifies, otherwise the normalized text of the best candidate. -/
def detect_title (doc : Document) (blocks : List Block) : String :=
  if doc.page_count = 0 then ""
  else
    match maxCandFirst (title_candidates doc.page_width doc.page_height blocks) with
    | none => ""
    | some c => normalize_text c.text

/-- The compiled numbered-heading regular expression from the language
configuration, abstracted as external data: matchesAt is regex.match (a
test at the start of the string) and subAll is regex.sub applied to the
whole string. -/
structure NumRegex where
  matchesAt : String → Bool
  subAll : String → String

/-- The numbering-strip step of the assembly loop: when a regex is
configured and matches the normalized text, replace its matches by the
empty string and strip the result. -/
def stripNumbering (rx : Option NumRegex) (t : String) : String :=
  match rx with
  | none => t
  | some r => if r.matchesAt t then pyStrip (r.subAll t) else t

/-- The accumulator state threaded through the scoring loop: the bottom
edge and page of the immediately preceding line of any kind. -/
structure ScanState where
  last_y1 : ℚ
  last_page : ℤ
  deriving DecidableEq

/-- A scored heading candidate as stored in scored_candidates. -/
structure Candidate where
  block : Block
  score : ℚ
  deriving DecidableEq

/-- Helper for wordCount: count maximal non-whitespace runs, given whether
the previous character was inside a word. -/
def countRuns (inWord : Bool) : List Char → ℕ
  | [] => 0
  | c :: cs =>
    if c.isWhitespace then countRuns false cs
    else (if inWord then 0 else 1) + countRuns true cs

/-- len(text.split()): Python str.split() splits on whitespace runs and
drops empty pieces, so this is the number of maximal non-whitespace runs. -/
def wordCount (s : String) : ℕ :=
  countRuns false s.data

/-- The font-size term of the heading score: retained only when the primary
heading size exceeds the body size, exactly as the guard in the code. -/
def sizeScore (body_size primary_heading_size : ℤ) (b : Block) : ℚ :=
  if (body_size : ℚ) < (primary_heading_size : ℚ) then
    (b.font_size - (body_size : ℚ)) / ((primary_heading_size : ℚ) - (body_size : ℚ)) * W_FONT_SIZE
  else 0

/-- The vertical gap: distance from the previous bottom edge on the same
page, otherwise a synthetic gap of twice the body size. -/
def verticalGap (body_size : ℤ) (st : ScanState) (b : Block) : ℚ :=
  if b.page = st.last_page then b.y0 - st.last_y1 else (body_size : ℚ) * 2

/-- min(2.0, vertical_gap / body_size): the gap factor, capped above at 2
(and uncapped below). -/
def gapFactor (body_size : ℤ) (st : ScanState) (b : Block) : ℚ :=
  min 2 (verticalGap body_size st b / (body_size : ℚ))

/-- Bold bonus. -/
def boldBonus (b : Block) : ℚ :=
  if b.bold then W_IS_BOLD else 0

/-- Shape bonus: more than 4 words or a colon among the characters. -/
def shapeBonus (b : Block) : ℚ :=
  if 4 < wordCount b.text ∨ b.text.data.contains ':' = true then W_TEXT_LENGTH else 0

/-- The composite heading score of a surviving line. -/
def scoreOf (body_size primary_heading_size : ℤ) (st : ScanState) (b : Block) : ℚ :=
  sizeScore body_size primary_heading_size b + gapFactor body_size st b * W_VERTICAL_GAP +
    boldBonus b + shapeBonus b

/-- One iteration of the phase-1 scoring loop on block number i (0-based):
the next accumulator state and the candidate recorded, if any.  A line
excluded by the basic filter sets last_y1 to its own bottom edge only when
i is positive (the code writes 0 for the first block); the boilerplate
branch and the recording branch always advance to the bottom edge. -/
def phase1step (simFn : String → String → ℚ) (title : String)
    (body_size primary_heading_size : ℤ) (rep : String × ℤ → Bool)
    (i : ℕ) (st : ScanState) (b : Block) : ScanState × Option Candidate :=
  if b.font_size ≤ (body_size : ℚ) ∨ b.text = "" ∨ is_similar simFn b.text title = true then
    (⟨if 0 < i then b.y1 else 0, b.page⟩, none)
  else if rep (blockKey b) = true then
    (⟨b.y1, b.page⟩, none)
  else
    (⟨b.y1, b.page⟩, some ⟨b, scoreOf body_size primary_heading_size st b⟩)

/-- The phase-1 scoring loop: left fold of phase1step collecting the
recorded candidates. -/
def phase1go (simFn : String → String → ℚ) (title : String)
    (body_size primary_heading_size : ℤ) (rep : String × ℤ → Bool) :
    ℕ → ScanState → List Block → List Candidate
  | _, _, [] => []
  | i, st, b :: bs =>
    match phase1step simFn title body_size primary_heading_size rep i st b with
    | (st2, none) => phase1go simFn title body_size primary_heading_size rep (i + 1) st2 bs
    | (st2, some c) => c :: phase1go simFn title body_size primary_heading_size rep (i + 1) st2 bs

/-- Phase 1 of classify_headings started with last_y1 = 0 and last_page = 0. -/
def phase1 (simFn : String → String → ℚ) (title : String)
    (body_size primary_heading_size : ℤ) (rep : String × ℤ → Bool)
    (blocks : List Block) : List Candidate :=
  phase1go simFn title body_size primary_heading_size rep 0 ⟨0, 0⟩ blocks

/-- The scored_candidates list of classify_headings for a given block
list. -/
def candidatesOf (simFn : String → String → ℚ) (blocks : List Block)
    (title : String) : List Candidate :=
  phase1 simFn title (cluster_font_sizes blocks).1 (cluster_font_sizes blocks).2
    (isRepeatedElement blocks) blocks

/-- np.mean over exact reals. -/
noncomputable def npMean (l : List ℝ) : ℝ :=
  l.sum / l.length

/-- np.std over exact reals (population standard deviation, the numpy
default ddof = 0). -/
noncomputable def npStd (l : List ℝ) : ℝ :=
  Real.sqrt ((l.map fun x => (x - npMean l) ^ 2).sum / l.length)

/-- The candidate scores as the float array np.array([c.score ...]). -/
noncomputable def scoresOf (cands : List Candidate) : List ℝ :=
  cands.map fun c => ((c.score : ℚ) : ℝ)

/-- h1_threshold: the plain mean for fewer than 3 scores, otherwise the
mean plus 0.8 standard deviations. -/
noncomputable def h1Threshold (scores : List ℝ) : ℝ :=
  if scores.length < 3 then npMean scores else npMean scores + npStd scores * 0.8

/-- h2_threshold: 0.9 times the mean, regardless of the sample size. -/
noncomputable def h2Threshold (scores : List ℝ) : ℝ :=
  npMean scores * 0.9

/-- The level assignment of the classification loop: H1 when the score
reaches the H1 threshold, else H2 when it reaches the H2 threshold, else
H3. -/
noncomputable def levelOf (h1 h2 : ℝ) (score : ℚ) : String :=
  if h1 ≤ (score : ℝ) then "H1" else if h2 ≤ (score : ℝ) then "H2" else "H3"

/-- The outline entry a candidate would produce: its level, its normalized
and numbering-stripped text, and its page. -/
noncomputable def entryOf (rx : Option NumRegex) (h1 h2 : ℝ) (c : Candidate) : OutlineEntry :=
  ⟨levelOf h1 h2 c.score, stripNumbering rx (normalize_text c.block.text), c.block.page⟩

/-- Phase 2 of classify_headings: for each candidate compute the level and
the normalized, numbering-stripped text, and append the entry only when
that text has at least HEADING_MIN_CHARS characters. -/
noncomputable def assemble (rx : Option NumRegex) (h1 h2 : ℝ)
    (cands : List Candidate) : List OutlineEntry :=
  cands.filterMap fun c =>
    let level := levelOf h1 h2 c.score
    let t := stripNumbering rx (normalize_text c.block.text)
    if HEADING_MIN_CHARS ≤ t.length then some ⟨level, t, c.block.page⟩ else none

/-- classify_headings: empty on degenerate typography (body size 0 or no
size above it), empty when no candidate is scored, otherwise the assembled
entries under the adaptive thresholds. -/
noncomputable def classify_headings (simFn : String → String → ℚ)
    (blocks : List Block) (title : String) (rx : Option NumRegex) : List OutlineEntry :=
  if (cluster_font_sizes blocks).1 = 0 ∨
      (cluster_font_sizes blocks).2 ≤ (cluster_font_sizes blocks).1 then []
  else if candidatesOf simFn blocks title = [] then []
  else
    assemble rx (h1Threshold (scoresOf (candidatesOf simFn blocks title)))
      (h2Threshold (scoresOf (candidatesOf simFn blocks title)))
      (candidatesOf simFn blocks title)

/-- format_embedded_toc: each (level, title, page) of the embedded outline
becomes {"level": "H" + level, "text": title.strip(), "page": page}. -/
def format_embedded_toc (toc : List (ℤ × String × ℤ)) : List OutlineEntry :=
  toc.map fun t => ⟨"H" ++ toString t.1, pyStrip t.2.1, t.2.2⟩

/-- extract_outline on an opened document: the title is always detected
from the blocks; a non-empty embedded outline is reformatted directly,
otherwise an empty block list yields no result and a non-empty one is
classified heuristically. -/
noncomputable def extract_outline (simFn : String → String → ℚ)
    (doc : Document) (rx : Option NumRegex) : Option DocResult :=
  let title := detect_title doc doc.blocks
  if doc.toc ≠ [] then some ⟨title, format_embedded_toc doc.toc⟩
  else if doc.blocks = [] then none
  else some ⟨title, classify_headings simFn doc.blocks title rx⟩

/-- The reformatting described by the specification sentence for the
embedded outline: each (level, title, page) triple becomes an entry with
level "H" + level, the title text itself, and the page. -/
def format_embedded_toc_claim (toc : List (ℤ × String × ℤ)) : List OutlineEntry :=
  toc.map fun t => ⟨"H" ++ toString t.1, t.2.1, t.2.2⟩

/-- The H1 threshold as worded by the specification: mean for fewer than 3
candidates, otherwise mean plus 0.8 times the population standard
deviation. -/
noncomputable def h1Threshold_claim (scores : List ℝ) : ℝ :=
  if scores.length < 3 then npMean scores else npMean scores + 0.8 * npStd scores

/-- The H2 threshold as worded by the specification: 0.9 times the mean,
regardless of sample size. -/
noncomputable def h2Threshold_claim (scores : List ℝ) : ℝ :=
  0.9 * npMean scores

/-- The level rule as worded by the specification: H1 at or above the H1
threshold, else H2 at or above the H2 threshold, else H3. -/
noncomputable def levelOf_claim (h1 h2 : ℝ) (score : ℚ) : String :=
  if h1 ≤ (score : ℝ) then "H1" else if h2 ≤ (score : ℝ) then "H2" else "H3"

/-- The level list the classifier assigns to a list of scores, each scored
against the thresholds of the whole list. -/
noncomputable def levelsFor (scores : List ℚ) : List String :=
  scores.map fun s =>
    levelOf (h1Threshold (scores.map fun q => ((q : ℚ) : ℝ)))
      (h2Threshold (scores.map fun q => ((q : ℚ) : ℝ))) s

/-- The adjacency invariant of normalized text: the second character of any
consecutive pair differs from the first or is not alphanumeric. -/
def dupOk (a b : Char) : Prop :=
  b ≠ a ∨ ¬ b.isAlphanum

theorem normalizeFrom_chain (l : List Char) :
    ∀ prev, List.Chain' dupOk (prev :: normalizeFrom prev l) := by
  induction l with
  | nil => intro prev; simp [normalizeFrom]
  | cons c cs ih =>
    intro prev
    by_cases h : c ≠ prev ∨ ¬ c.isAlphanum
    · rw [normalizeFrom, if_pos h, List.chain'_cons]
      exact ⟨h, ih c⟩
    · rw [normalizeFrom, if_neg h]
      push_neg at h
      rw [show prev = c from h.1.symm]
      exact ih c

theorem normalizeChars_chain (l : List Char) :
    List.Chain' dupOk (normalizeChars l) := by
  cases l with
  | nil => simp [normalizeChars]
  | cons c cs => exact normalizeFrom_chain cs c

theorem normalizeFrom_of_chain (l : List Char) :
    ∀ prev, List.Chain' dupOk (prev :: l) → normalizeFrom prev l = l := by
  induction l with
  | nil => intro prev _; rfl
  | cons c cs ih =>
    intro prev h
    rw [List.chain'_cons] at h
    have h1 : c ≠ prev ∨ ¬ c.isAlphanum = true := h.1
    rw [normalizeFrom, if_pos h1, ih c h.2]

theorem normalizeChars_idem (l : List Char) :
    normalizeChars (normalizeChars l) = normalizeChars l := by
  have h := normalizeChars_chain l
  cases hl : normalizeChars l with
  | nil => simp [normalizeChars]
  | cons c cs =>
    rw [hl] at h
    rw [normalizeChars, normalizeFrom_of_chain cs c h]

/-- Claim C9: text normalization is idempotent; applying normalize_text
twice gives the same string as applying it once. -/
theorem c9_normalize_idempotent (s : String) :
    normalize_text (normalize_text s) = normalize_text s := by
  unfold normalize_text
  exact congrArg String.mk (normalizeChars_idem s.data)

/-- Claim C10: a document with page count 0 gets the empty title, and the
result does not depend on the page dimensions or on the block list. -/
theorem c10_zero_pages (doc : Document) (blocks : List Block)
    (h : doc.page_count = 0) :
    detect_title doc blocks = "" ∧
      ∀ (doc2 : Document) (blocks2 : List Block), doc2.page_count = 0 →
        detect_title doc blocks = detect_title doc2 blocks2 := by
  constructor
  · rw [detect_title, if_pos h]
  · intro doc2 blocks2 h2
    rw [detect_title, if_pos h, detect_title, if_pos h2]

theorem c10_witness :
    detect_title ⟨0, 100, 200, [], []⟩ [⟨"some title", 12, false, 1, 0, 0, 0, 9⟩] = "" ∧
      ∀ (doc2 : Document) (blocks2 : List Block), doc2.page_count = 0 →
        detect_title ⟨0, 100, 200, [], []⟩ [⟨"some title", 12, false, 1, 0, 0, 0, 9⟩] =
          detect_title doc2 blocks2 :=
  c10_zero_pages ⟨0, 100, 200, [], []⟩ [⟨"some title", 12, false, 1, 0, 0, 0, 9⟩] rfl

/-- Claim C2: when the computed body size is 0 or the primary heading size
does not exceed it, classify_headings returns the empty outline; and in
every produced result the title is the detect_title value, unaffected by
that condition. -/
theorem c2_degenerate_typography (simFn : String → String → ℚ) (blocks : List Block)
    (title : String) (rx : Option NumRegex)
    (h : (cluster_font_sizes blocks).1 = 0 ∨
      (cluster_font_sizes blocks).2 ≤ (cluster_font_sizes blocks).1) :
    classify_headings simFn blocks title rx = [] ∧
      ∀ (doc : Document) (rx2 : Option NumRegex) (r : DocResult),
        extract_outline simFn doc rx2 = some r → r.title = detect_title doc doc.blocks := by
  constructor
  · rw [classify_headings, if_pos h]
  · intro doc rx2 r hr
    simp only [extract_outline] at hr
    split_ifs at hr <;> cases hr <;> rfl

theorem c2_witness :
    classify_headings (fun _ _ => 0) [] "any title" none = [] ∧
      ∀ (doc : Document) (rx2 : Option NumRegex) (r : DocResult),
        extract_outline (fun _ _ => 0) doc rx2 = some r →
          r.title = detect_title doc doc.blocks :=
  c2_degenerate_typography (fun _ _ => 0) [] "any title" none (Or.inl (by decide))

/-- Claim C1 (amended): with a non-empty embedded outline the result is the
detected title together with format_embedded_toc of that outline (levels
become "H" + level, titles are whitespace-stripped), and the outline part
is independent of the similarity function, the block list and the language
regex, so no heuristic analysis contributes to it. -/
theorem c1_embedded_bypass (simFn : String → String → ℚ) (doc : Document)
    (rx : Option NumRegex) (h : doc.toc ≠ []) :
    extract_outline simFn doc rx =
      some ⟨detect_title doc doc.blocks, format_embedded_toc doc.toc⟩ ∧
    ∀ (simFn2 : String → String → ℚ) (blocks2 : List Block) (rx2 : Option NumRegex),
      Option.map DocResult.outline
          (extract_outline simFn2 { doc with blocks := blocks2 } rx2) =
        some (format_embedded_toc doc.toc) := by
  constructor
  · simp only [extract_outline]
    rw [if_pos h]
  · intro simFn2 blocks2 rx2
    simp only [extract_outline]
    rw [if_pos (show Document.toc { doc with blocks := blocks2 } ≠ [] from h)]
    rfl

/-- Claim C1, counterexample to the claim as stated: an embedded title
with surrounding whitespace is stripped by the code, so the output is not
the verbatim (level, title, page) reformatting. -/
theorem c1_counterexample :
    extract_outline (fun _ _ => 0) ⟨1, 100, 100, [(1, " A ", 1)], []⟩ none =
      some ⟨"", [⟨"H1", "A", 1⟩]⟩ ∧
    format_embedded_toc_claim [(1, " A ", 1)] = [⟨"H1", " A ", 1⟩] ∧
    (⟨"H1", "A", 1⟩ : OutlineEntry) ≠ ⟨"H1", " A ", 1⟩ :=
  ⟨by decide, by decide, by decide⟩

theorem c1_witness :
    extract_outline (fun _ _ => 0) ⟨2, 50, 80, [(2, "Intro", 3)], []⟩ none =
      some ⟨detect_title ⟨2, 50, 80, [(2, "Intro", 3)], []⟩ [],
        format_embedded_toc [(2, "Intro", 3)]⟩ ∧
    Option.map DocResult.outline
        (extract_outline (fun _ _ => 1)
          ⟨2, 50, 80, [(2, "Intro", 3)], [⟨"Other text here", 30, true, 1, 0, 0, 40, 9⟩]⟩ none) =
      some (format_embedded_toc [(2, "Intro", 3)]) :=
  ⟨(c1_embedded_bypass (fun _ _ => 0) ⟨2, 50, 80, [(2, "Intro", 3)], []⟩ none (by decide)).1,
    (c1_embedded_bypass (fun _ _ => 0) ⟨2, 50, 80, [(2, "Intro", 3)], []⟩ none (by decide)).2
      (fun _ _ => 1) [⟨"Other text here", 30, true, 1, 0, 0, 40, 9⟩] none⟩

/-- Claim C4 (amended): every line processed at index i > 0 advances the
accumulator to its own bottom edge and page, whether it is excluded or
recorded; at index 0 a line excluded by the basic filter writes 0 instead
of its bottom edge (while the page still advances). -/
theorem c4_state_advances (simFn : String → String → ℚ) (title : String)
    (body_size primary_heading_size : ℤ) (rep : String × ℤ → Bool)
    (i : ℕ) (st : ScanState) (b : Block) (hi : 0 < i) :
    (phase1step simFn title body_size primary_heading_size rep i st b).1 =
      ⟨b.y1, b.page⟩ := by
  unfold phase1step
  split_ifs with h1 h2
  · simp [hi]
  · rfl
  · rfl

/-- Claim C4, counterexample to the claim as stated: the very first block,
excluded by the basic filter, leaves the y1 accumulator at 0 instead of
its own bottom edge 5. -/
theorem c4_counterexample :
    phase1step (fun _ _ => 0) "" 10 20 (fun _ => false) 0 ⟨0, 0⟩
        ⟨"x", 5, false, 1, 0, 0, 0, 5⟩ =
      (⟨0, 1⟩, none) ∧
    (⟨(0 : ℚ), (1 : ℤ)⟩ : ScanState) ≠
      ⟨Block.y1 ⟨"x", 5, false, 1, 0, 0, 0, 5⟩, Block.page ⟨"x", 5, false, 1, 0, 0, 0, 5⟩⟩ :=
  ⟨by decide, by decide⟩

theorem c4_witness :
    (phase1step (fun _ _ => 0) "" 10 20 (fun _ => false) 1 ⟨0, 0⟩
        ⟨"x", 5, false, 1, 0, 0, 0, 5⟩).1 =
      ⟨5, 1⟩ :=
  c4_state_advances (fun _ _ => 0) "" 10 20 (fun _ => false) 1 ⟨0, 0⟩
    ⟨"x", 5, false, 1, 0, 0, 0, 5⟩ (by decide)

theorem phase1step_some (simFn : String → String → ℚ) (title : String)
    (body_size primary_heading_size : ℤ) (rep : String × ℤ → Bool)
    (i : ℕ) (st : ScanState) (b : Block) (st2 : ScanState) (c : Candidate)
    (h : phase1step simFn title body_size primary_heading_size rep i st b = (st2, some c)) :
    c.block = b ∧ c.score = scoreOf body_size primary_heading_size st b ∧
      rep (blockKey b) = false ∧ ¬ b.font_size ≤ (body_size : ℚ) := by
  unfold phase1step at h
  by_cases h1 : b.font_size ≤ (body_size : ℚ) ∨ b.text = "" ∨ is_similar simFn b.text title = true
  · rw [if_pos h1] at h
    simp at h
  · rw [if_neg h1] at h
    by_cases h2 : rep (blockKey b) = true
    · rw [if_pos h2] at h
      simp at h
    · rw [if_neg h2] at h
      simp only [Prod.mk.injEq, Option.some.injEq] at h
      push_neg at h1
      obtain ⟨-, hc⟩ := h
      rw [← hc]
      exact ⟨rfl, rfl, by simpa using h2, not_le.mpr h1.1⟩

theorem phase1go_mem (simFn : String → String → ℚ) (title : String)
    (body_size primary_heading_size : ℤ) (rep : String × ℤ → Bool) :
    ∀ (bs : List Block) (i : ℕ) (st : ScanState) (c : Candidate),
      c ∈ phase1go simFn title body_size primary_heading_size rep i st bs →
      c.block ∈ bs ∧ rep (blockKey c.block) = false := by
  intro bs
  induction bs with
  | nil =>
    intro i st c h
    simp [phase1go] at h
  | cons b bs ih =>
    intro i st c h
    rw [phase1go] at h
    rcases hstep : phase1step simFn title body_size primary_heading_size rep i st b with ⟨st2, oc⟩
    rw [hstep] at h
    cases oc with
    | none =>
      obtain ⟨hm, hr⟩ := ih (i + 1) st2 c h
      exact ⟨List.mem_cons_of_mem _ hm, hr⟩
    | some c2 =>
      rcases List.mem_cons.mp h with hc | hc
      · subst hc
        obtain ⟨hb, -, hrep, -⟩ :=
          phase1step_some simFn title body_size primary_heading_size rep i st b st2 c hstep
        rw [hb]
        exact ⟨List.mem_cons_self b bs, hrep⟩
      · obtain ⟨hm, hr⟩ := ih (i + 1) st2 c hc
        exact ⟨List.mem_cons_of_mem _ hm, hr⟩

theorem assemble_mem (rx : Option NumRegex) (h1 h2 : ℝ) (cands : List Candidate)
    (e : OutlineEntry) (h : e ∈ assemble rx h1 h2 cands) :
    ∃ c, c ∈ cands ∧ e = entryOf rx h1 h2 c ∧
      HEADING_MIN_CHARS ≤ (stripNumbering rx (normalize_text c.block.text)).length := by
  unfold assemble at h
  rw [List.mem_filterMap] at h
  obtain ⟨c, hc, hfc⟩ := h
  dsimp only at hfc
  by_cases hlen : HEADING_MIN_CHARS ≤ (stripNumbering rx (normalize_text c.block.text)).length
  · rw [if_pos hlen] at hfc
    refine ⟨c, hc, ?_, hlen⟩
    injection hfc with hfc2
    rw [← hfc2]
    rfl
  · rw [if_neg hlen] at hfc
    cases hfc

theorem classify_mem (simFn : String → String → ℚ) (blocks : List Block)
    (title : String) (rx : Option NumRegex) (e : OutlineEntry)
    (h : e ∈ classify_headings simFn blocks title rx) :
    ∃ c, c ∈ candidatesOf simFn blocks title ∧
      e = entryOf rx (h1Threshold (scoresOf (candidatesOf simFn blocks title)))
        (h2Threshold (scoresOf (candidatesOf simFn blocks title))) c := by
  unfold classify_headings at h
  split_ifs at h
  · simp at h
  · simp at h
  · obtain ⟨c, hc, he, -⟩ := assemble_mem _ _ _ _ _ h
    exact ⟨c, hc, he⟩

/-- Claim C6: the boilerplate key set is order-independent (invariant under
permutation of the block list), and every entry of the heuristic outline
stems from a block whose key is not a repeated element; boilerplate lines
never reach the outline. -/
theorem c6_boilerplate (simFn : String → String → ℚ) (blocks : List Block)
    (title : String) (rx : Option NumRegex) :
    (∀ blocks2 : List Block, blocks.Perm blocks2 →
      ∀ k : String × ℤ, isRepeatedElement blocks k = isRepeatedElement blocks2 k) ∧
    List.Forall
      (fun e => ∃ b, b ∈ blocks ∧ isRepeatedElement blocks (blockKey b) = false ∧
        e.text = stripNumbering rx (normalize_text b.text) ∧ e.page = b.page)
      (classify_headings simFn blocks title rx) := by
  constructor
  · intro blocks2 hp k
    unfold isRepeatedElement
    have hperm := (((hp.filter fun b => decide (blockKey b = k)).map Block.page).dedup)
    rw [hperm.length_eq]
  · rw [List.forall_iff_forall_mem]
    intro e he
    obtain ⟨c, hc, he2⟩ := classify_mem simFn blocks title rx e he
    unfold candidatesOf phase1 at hc
    obtain ⟨hm, hrep⟩ := phase1go_mem simFn title (cluster_font_sizes blocks).1
      (cluster_font_sizes blocks).2 (isRepeatedElement blocks) blocks 0 ⟨0, 0⟩ c hc
    exact ⟨c.block, hm, hrep, by rw [he2]; rfl, by rw [he2]; rfl⟩

theorem c6_witness :
    isRepeatedElement
        [⟨"Header", 9, false, 1, 0, 21, 30, 29⟩, ⟨"Header", 9, false, 2, 0, 22, 30, 30⟩]
        (blockKey ⟨"Header", 9, false, 1, 0, 21, 30, 29⟩) =
      isRepeatedElement
        [⟨"Header", 9, false, 2, 0, 22, 30, 30⟩, ⟨"Header", 9, false, 1, 0, 21, 30, 29⟩]
        (blockKey ⟨"Header", 9, false, 1, 0, 21, 30, 29⟩) :=
  (c6_boilerplate (fun _ _ => 0)
      [⟨"Header", 9, false, 1, 0, 21, 30, 29⟩, ⟨"Header", 9, false, 2, 0, 22, 30, 30⟩]
      "" none).1
    [⟨"Header", 9, false, 2, 0, 22, 30, 30⟩, ⟨"Header", 9, false, 1, 0, 21, 30, 29⟩]
    (List.Perm.swap _ _ _)
    (blockKey ⟨"Header", 9, false, 1, 0, 21, 30, 29⟩)

/-- Claim C7 (amended): every entry produced by the heuristic classifier
has level H1, H2 or H3; an embedded outline entry has level "H" + its
embedded level, which lies outside that set when the level exceeds 3. -/
theorem c7_levels (simFn : String → String → ℚ) (blocks : List Block)
    (title : String) (rx : Option NumRegex) :
    List.Forall (fun e => e.level = "H1" ∨ e.level = "H2" ∨ e.level = "H3")
      (classify_headings simFn blocks title rx) ∧
    ∀ toc : List (ℤ × String × ℤ),
      (format_embedded_toc toc).map OutlineEntry.level =
        toc.map fun t => "H" ++ toString t.1 := by
  constructor
  · rw [List.forall_iff_forall_mem]
    intro e he
    obtain ⟨c, -, he2⟩ := classify_mem simFn blocks title rx e he
    rw [he2]
    show levelOf _ _ _ = "H1" ∨ levelOf _ _ _ = "H2" ∨ levelOf _ _ _ = "H3"
    unfold levelOf
    split_ifs <;> simp
  · intro toc
    unfold format_embedded_toc
    rw [List.map_map]
    rfl

/-- Claim C7, counterexample to the claim as stated: an embedded outline
with level 4 produces an entry whose level "H4" is none of H1, H2, H3. -/
theorem c7_counterexample :
    extract_outline (fun _ _ => 0) ⟨1, 100, 100, [(4, "Deep", 2)], []⟩ none =
      some ⟨"", [⟨"H4", "Deep", 2⟩]⟩ ∧
    ¬ ("H4" = "H1" ∨ "H4" = "H2" ∨ "H4" = "H3") :=
  ⟨by decide, by decide⟩

theorem assemble_cons_pos (rx : Option NumRegex) (h1 h2 : ℝ) (c : Candidate)
    (cs : List Candidate)
    (hc : HEADING_MIN_CHARS ≤ (stripNumbering rx (normalize_text c.block.text)).length) :
    assemble rx h1 h2 (c :: cs) = entryOf rx h1 h2 c :: assemble rx h1 h2 cs := by
  unfold assemble
  rw [List.filterMap_cons]
  dsimp only
  rw [if_pos hc]
  rfl

theorem assemble_cons_neg (rx : Option NumRegex) (h1 h2 : ℝ) (c : Candidate)
    (cs : List Candidate)
    (hc : ¬ HEADING_MIN_CHARS ≤ (stripNumbering rx (normalize_text c.block.text)).length) :
    assemble rx h1 h2 (c :: cs) = assemble rx h1 h2 cs := by
  unfold assemble
  rw [List.filterMap_cons]
  dsimp only
  rw [if_neg hc]

/-- Claim C8: the assembly phase maps every candidate to its entry and
keeps exactly those whose final text has at least HEADING_MIN_CHARS
characters; shorter ones are omitted entirely. -/
theorem c8_min_length (rx : Option NumRegex) (h1 h2 : ℝ) (cands : List Candidate) :
    assemble rx h1 h2 cands =
      (cands.map (entryOf rx h1 h2)).filter
        fun e => decide (HEADING_MIN_CHARS ≤ e.text.length) := by
  induction cands with
  | nil => rfl
  | cons c cs ih =>
    rw [List.map_cons, List.filter_cons]
    simp only [entryOf, decide_eq_true_eq] at ih ⊢
    by_cases hc : HEADING_MIN_CHARS ≤ (stripNumbering rx (normalize_text c.block.text)).length
    · rw [assemble_cons_pos rx h1 h2 c cs hc, ih, if_pos hc]
      rfl
    · rw [assemble_cons_neg rx h1 h2 c cs hc, ih, if_neg hc]

/-- Claim C5 (amended): a recorded candidate has a non-negative score
whenever the body size is positive and the line does not start above the
accumulated bottom edge of the preceding line on the same page; the gap
factor is capped above at 2 but unbounded below, so a sufficiently
negative vertical gap makes the score negative. -/
theorem c5_score_nonneg (simFn : String → String → ℚ) (title : String)
    (body_size primary_heading_size : ℤ) (rep : String × ℤ → Bool)
    (i : ℕ) (st : ScanState) (b : Block) (st2 : ScanState) (c : Candidate)
    (hbody : 0 < body_size)
    (hgap : st.last_page = b.page → st.last_y1 ≤ b.y0)
    (hstep : phase1step simFn title body_size primary_heading_size rep i st b =
      (st2, some c)) :
    0 ≤ c.score := by
  obtain ⟨-, hsc, -, hfont⟩ :=
    phase1step_some simFn title body_size primary_heading_size rep i st b st2 c hstep
  rw [hsc]
  unfold scoreOf
  have hb : (0 : ℚ) < (body_size : ℚ) := by exact_mod_cast hbody
  have hfont2 : (body_size : ℚ) < b.font_size := lt_of_not_le hfont
  have h1 : 0 ≤ sizeScore body_size primary_heading_size b := by
    unfold sizeScore
    split_ifs with hbp
    · apply mul_nonneg
      · apply div_nonneg
        · linarith
        · linarith
      · norm_num [W_FONT_SIZE]
    · exact le_refl 0
  have h2 : 0 ≤ verticalGap body_size st b := by
    unfold verticalGap
    split_ifs with hpg
    · have := hgap hpg.symm
      linarith
    · linarith
  have h3 : 0 ≤ gapFactor body_size st b := by
    unfold gapFactor
    exact le_min (by norm_num) (div_nonneg h2 hb.le)
  have h4 : 0 ≤ boldBonus b := by
    unfold boldBonus
    split_ifs
    · norm_num [W_IS_BOLD]
    · exact le_refl 0
  have h5 : 0 ≤ shapeBonus b := by
    unfold shapeBonus
    split_ifs
    · norm_num [W_TEXT_LENGTH]
    · exact le_refl 0
  have h6 : 0 ≤ gapFactor body_size st b * W_VERTICAL_GAP :=
    mul_nonneg h3 (by norm_num [W_VERTICAL_GAP])
  linarith

/-- Claim C5, counterexample to the claim as stated: with body size 10 and
primary size 20, two excluded lines ending at y = 200 followed by a
surviving line whose top edge is at y = 10 give a vertical gap of -190, a
gap factor of -19 and a recorded score of 25 - 760 = -735 < 0. -/
theorem c5_counterexample :
    phase1 (fun _ _ => 0) "" 10 20 (fun _ => false)
      [⟨"aaaa", 10, false, 1, 0, 0, 0, 200⟩, ⟨"bbbb", 10, false, 1, 0, 0, 0, 200⟩,
       ⟨"head", 20, false, 1, 0, 10, 0, 20⟩] =
      [⟨⟨"head", 20, false, 1, 0, 10, 0, 20⟩, -735⟩] ∧
    ((-735 : ℚ) < 0) := by
  constructor
  · have e1 : ("aaaa" = "") = False := by simp
    have e2 : ("bbbb" = "") = False := by simp
    have e3 : ("head" = "") = False := by simp
    have w1 : wordCount "head" = 1 := by decide
    have w2 : "head".data.contains ':' = false := by decide
    norm_num [phase1, phase1go, phase1step, is_similar, SIMILARITY_THRESHOLD, scoreOf,
      sizeScore, verticalGap, gapFactor, boldBonus, shapeBonus, w1, w2, e1, e2, e3,
      W_FONT_SIZE, W_VERTICAL_GAP, W_IS_BOLD, W_TEXT_LENGTH]
    decide
  · norm_num

theorem c5_witness :
    (0 : ℚ) ≤ Candidate.score ⟨⟨"head", 20, false, 1, 0, 5, 0, 20⟩, 45⟩ :=
  c5_score_nonneg (fun _ _ => 0) "" 10 20 (fun _ => false) 3 ⟨0, 1⟩
    ⟨"head", 20, false, 1, 0, 5, 0, 20⟩ ⟨20, 1⟩ ⟨⟨"head", 20, false, 1, 0, 5, 0, 20⟩, 45⟩
    (by norm_num) (fun _ => by norm_num)
    (by
      have e3 : ("head" = "") = False := by simp
      have w1 : wordCount "head" = 1 := by decide
      have w2 : "head".data.contains ':' = false := by decide
      norm_num [phase1step, is_similar, SIMILARITY_THRESHOLD, scoreOf, sizeScore,
        verticalGap, gapFactor, boldBonus, shapeBonus, w1, w2, e3,
        W_FONT_SIZE, W_VERTICAL_GAP, W_IS_BOLD, W_TEXT_LENGTH]
      decide)

/-- Claim C3: the code thresholds agree with the specification formulas
(mean below 3 candidates, mean plus 0.8 population standard deviations
otherwise, 0.9 mean for H2, levels by the two threshold tests), and on the
score list [10, 20, 90] the assigned levels are H3, H3, H1. -/
theorem c3_adaptive_thresholds :
    (∀ scores : List ℝ, h1Threshold scores = h1Threshold_claim scores ∧
      h2Threshold scores = h2Threshold_claim scores) ∧
    (∀ (h1 h2 : ℝ) (s : ℚ), levelOf h1 h2 s = levelOf_claim h1 h2 s) ∧
    levelsFor [10, 20, 90] = ["H3", "H3", "H1"] := by
  refine ⟨?_, fun h1 h2 s => rfl, ?_⟩
  · intro scores
    constructor
    · unfold h1Threshold h1Threshold_claim
      split_ifs
      · rfl
      · ring
    · unfold h2Threshold h2Threshold_claim
      ring
  · have hcast : (([10, 20, 90] : List ℚ).map fun q => ((q : ℚ) : ℝ)) = [(10 : ℝ), 20, 90] := by
      norm_num
    have hmean : npMean [(10 : ℝ), 20, 90] = 40 := by
      unfold npMean
      norm_num
    have hstd : npStd [(10 : ℝ), 20, 90] = Real.sqrt (3800 / 3) := by
      unfold npStd
      rw [hmean]
      norm_num
    have hs0 : (0 : ℝ) ≤ Real.sqrt (3800 / 3) := Real.sqrt_nonneg _
    have hsle : Real.sqrt (3800 / 3 : ℝ) ≤ 62.5 := by
      have hle : (3800 / 3 : ℝ) ≤ 62.5 ^ 2 := by norm_num
      have h2 := Real.sqrt_le_sqrt hle
      rwa [Real.sqrt_sq (by norm_num : (0 : ℝ) ≤ 62.5)] at h2
    have hh1 : h1Threshold [(10 : ℝ), 20, 90] = 40 + Real.sqrt (3800 / 3) * 0.8 := by
      unfold h1Threshold
      rw [if_neg (by norm_num), hmean, hstd]
    have hh2 : h2Threshold [(10 : ℝ), 20, 90] = 36 := by
      unfold h2Threshold
      rw [hmean]
      norm_num
    have e10 : levelOf (40 + Real.sqrt (3800 / 3) * 0.8) 36 10 = "H3" := by
      unfold levelOf
      rw [if_neg (by push_cast; nlinarith [hs0]), if_neg (by push_cast; norm_num)]
    have e20 : levelOf (40 + Real.sqrt (3800 / 3) * 0.8) 36 20 = "H3" := by
      unfold levelOf
      rw [if_neg (by push_cast; nlinarith [hs0]), if_neg (by push_cast; norm_num)]
    have e90 : levelOf (40 + Real.sqrt (3800 / 3) * 0.8) 36 90 = "H1" := by
      unfold levelOf
      rw [if_pos (by push_cast; nlinarith [hsle])]
    unfold levelsFor
    rw [hcast, hh1, hh2]
    simp only [List.map_cons, List.map_nil]
    rw [e10, e20, e90]
